import Mathlib

/-!
Verification of the PL-spectroscopy automation core: the filter-wheel
position tracker (`flywheel.py`), the auto-configuration routine
(`utils.configure_flywheel_with_powermeter`), the acquisition pipeline
(averaging, background subtraction, normalization) and the orchestrator
(`experiment.py`, `main.py`), shallowly embedded in Lean.

Intensity and power samples are modelled as rationals (the Python code
uses floats only through exact operations in the properties below:
subtraction, comparison with zero, division by a reference power).
-/

namespace PL

/-! ## Filter wheel (`flywheel.py`) -/

/-- Errors raised by `FlywheelController`: `invalidSlot` is the
`ValueError` for a slot outside `[1, slot_count]`, `unreachable` the
`RuntimeError` raised when the loop in `go_to_slot` fails to converge. -/
inductive FwError
  | invalidSlot
  | unreachable
deriving DecidableEq, Repr

/-- `_pulse_once`, the tracked-position part: `current_slot += 1`, then
wrap to `1` when it exceeds `slot_count` (`flywheel.py` lines 41-43). -/
def pulseOnce (n cur : Nat) : Nat :=
  if cur + 1 > n then 1 else cur + 1

/-- The `while self.current_slot != target_slot and attempts < max_attempts`
loop of `go_to_slot` (lines 55-57), over an abstract wheel state `σ` with
tracked position `view st`; `step` is the effect of one `_pulse_once` on
the state.  Fuel is the remaining attempt budget.  Returns the final state
and the number of pulses issued. -/
def goLoop {σ : Type} (target : Nat) (step : σ → σ) (view : σ → Nat) :
    Nat → σ → σ × Nat
  | 0, st => (st, 0)
  | k + 1, st =>
      if view st = target then (st, 0)
      else
        let r := goLoop target step view k (step st)
        (r.1, r.2 + 1)

/-- `FlywheelController.go_to_slot` (`flywheel.py` lines 45-62): validate
the target, return immediately when already there, otherwise pulse up to
`slot_count` times and raise `RuntimeError` if the tracked position still
disagrees.  Returns the outcome together with the number of `_pulse_once`
calls made. -/
def go_to_slot {σ : Type} (n target : Nat) (step : σ → σ) (view : σ → Nat)
    (st : σ) : Except FwError σ × Nat :=
  if 1 ≤ target ∧ target ≤ n then
    if target = view st then (Except.ok st, 0)
    else
      let r := goLoop target step view n st
      if view r.1 = target then (Except.ok r.1, r.2)
      else (Except.error FwError.unreachable, r.2)
  else (Except.error FwError.invalidSlot, 0)

/-! ## Tracked vs physical position

`_pulse_once` both triggers one physical wheel cycle and advances the
software-tracked `current_slot`; both move by one slot cyclically.
`reset_slot` changes only the tracked slot. -/

/-- The wheel's software-tracked slot paired with its true physical slot. -/
structure FwPair where
  tracked : Nat
  physical : Nat
deriving DecidableEq, Repr

/-- `_pulse_once` on the paired state: one pulse advances both the tracked
and the physical position by one slot, cyclically. -/
def pulsePair (n : Nat) (st : FwPair) : FwPair :=
  ⟨pulseOnce n st.tracked, pulseOnce n st.physical⟩

/-- `FlywheelController.reset_slot` (`flywheel.py` lines 68-72): trusted
override of the tracked slot, no physical motion. -/
def reset_slot (n known : Nat) (st : FwPair) : Except FwError FwPair :=
  if 1 ≤ known ∧ known ≤ n then Except.ok ⟨known, st.physical⟩
  else Except.error FwError.invalidSlot

/-! ## Auto-configuration (`utils.configure_flywheel_with_powermeter`) -/

/-- The measurement loop of `configure_flywheel_with_powermeter`
(`utils.py` lines 10-15): for each of `slot_count` iterations, read the
tracked slot, read the power meter (a function of the physical slot),
record the pair, and pulse once. -/
def configureLoop (n : Nat) (pm : Nat → ℚ) : Nat → FwPair → List (Nat × ℚ) × FwPair
  | 0, st => ([], st)
  | k + 1, st =>
      ((st.tracked, pm st.physical) :: (configureLoop n pm k (pulsePair n st)).1,
        (configureLoop n pm k (pulsePair n st)).2)

/-- Python `max(measurements, key=lambda x: x[1])` (`utils.py` line 16):
left fold keeping the first element attaining the maximal second
component. -/
def pyMaxBySnd (m : Nat × ℚ) (rest : List (Nat × ℚ)) : Nat × ℚ :=
  rest.foldl (fun b x => if b.2 < x.2 then x else b) m

/-- `configure_flywheel_with_powermeter` (`utils.py` lines 8-19): scan all
`slot_count` positions recording `(tracked_slot, power)` pairs, go to the
best slot, then `reset_slot(1)`. -/
def configure_flywheel_with_powermeter (n : Nat) (pm : Nat → ℚ) (st : FwPair) :
    Except FwError FwPair :=
  let r := configureLoop n pm n st
  match r.1 with
  | [] => Except.error FwError.unreachable
  | m :: rest =>
      let best := pyMaxBySnd m rest
      match go_to_slot n best.1 (pulsePair n) FwPair.tracked r.2 with
      | (Except.ok st2, _) => reset_slot n 1 st2
      | (Except.error e, _) => Except.error e

/-- Concrete power-meter response with the mirror at slot 3, used by the
auto-configuration witness. -/
def mirrorPM : Nat → ℚ := fun t => if t = 3 then 5 else 1

/-! ## Acquisition pipeline (`experiment.py`, `spectrometer.py`) -/

/-- `np.clip(inten, 0, None)`: elementwise max with 0. -/
def clipNonneg (l : List ℚ) : List ℚ := l.map (fun x => max x 0)

/-- `inten - background`: elementwise subtraction of two arrays. -/
def subBackground (inten bg : List ℚ) : List ℚ :=
  List.zipWith (fun a b => a - b) inten bg

/-- Normalization step of `run_degradation_study` (`experiment.py` lines
176-177): `if normalization != "none" and power > 0: inten = inten / power`. -/
def normalizeStep (norm : String) (power : ℚ) (inten : List ℚ) : List ℚ :=
  if norm ≠ "none" ∧ 0 < power then inten.map (fun x => x / power) else inten

/-- One measurement cycle of `run_degradation_study` (`experiment.py`
lines 129-181), tracking the Python local variable `background` as an
`Option` (`none` = never assigned).  `bgOnce` is the background the
pre-loop capture (lines 131-135) records when it runs, `bgMirror` the one
the in-loop mirror branch (lines 160-162) records when it runs, `inten`
the captured intensity array, `powerMirror` and `powerBs` the power-meter
readings at the mirror and beam-splitter slots.  Reading the
never-assigned local at line 180 raises `NameError`, returned as
`Except.error`. -/
def degradationCycle (flywheelMode norm : String) (bgCorrection repeatedBg : Bool)
    (bgOnce bgMirror inten : List ℚ) (powerMirror powerBs : ℚ) :
    Except String (List ℚ) :=
  let background0 : Option (List ℚ) :=
    if bgCorrection ∧ ¬repeatedBg then some bgOnce else none
  let power : ℚ :=
    if flywheelMode ≠ "skip" then
      if norm = "mirror" then powerMirror
      else if norm = "beam_splitter" then powerBs
      else 1
    else 1
  let background1 : Option (List ℚ) :=
    if flywheelMode ≠ "skip" ∧ norm = "mirror" ∧ bgCorrection ∧ repeatedBg then
      some bgMirror
    else background0
  let inten1 := normalizeStep norm power inten
  if bgCorrection then
    match background1 with
    | none => Except.error "NameError"
    | some bg => Except.ok (clipNonneg (subBackground inten1 bg))
  else Except.ok inten1

/-- The spectra persisted by one degradation cycle: `save_csv_spectrum`
(`experiment.py` line 202) runs only after the correction steps, so a
cycle that raised persists nothing. -/
def degradationCyclePersisted (flywheelMode norm : String)
    (bgCorrection repeatedBg : Bool) (bgOnce bgMirror inten : List ℚ)
    (powerMirror powerBs : ℚ) : List (List ℚ) :=
  match degradationCycle flywheelMode norm bgCorrection repeatedBg bgOnce bgMirror
    inten powerMirror powerBs with
  | Except.ok l => [l]
  | Except.error _ => []

/-! ## Spectrometer capture and averaging -/

/-- Wavelength grid of `get_raw_spectrum` (`spectrometer.py` line 57):
`np.linspace(200, 1100, 3648)`. -/
def wlGrid : List ℚ :=
  (List.range 3648).map (fun i => 200 + 900 * (i : ℚ) / 3647)

/-- `CCS_Spectrometer.get_raw_spectrum` (`spectrometer.py` lines 55-69):
returns the fixed wavelength grid together with the next intensity array
from the detector-noise stream, advancing the capture counter. -/
def get_raw_spectrum (stream : Nat → List ℚ) (k : Nat) :
    (List ℚ × List ℚ) × Nat :=
  ((wlGrid, stream k), k + 1)

/-- Elementwise sum of a stack of intensity arrays. -/
def sumIntensities : List (List ℚ) → List ℚ
  | [] => []
  | [x] => x
  | x :: y :: rest => List.zipWith (fun a b => a + b) x (sumIntensities (y :: rest))

/-- `np.mean(spectra, axis=0)`: elementwise arithmetic mean. -/
def meanIntensities (ss : List (List ℚ)) : List ℚ :=
  (sumIntensities ss).map (fun x => x / (ss.length : ℚ))

/-- `PLExperiment.average_spectrum` (`experiment.py` lines 51-56):
capture `avg_count` raw spectra, average the intensities elementwise,
then make one more `get_raw_spectrum` call for the wavelength axis. -/
def average_spectrum (stream : Nat → List ℚ) (avg k : Nat) :
    (List ℚ × List ℚ) × Nat :=
  let caps := (List.range avg).map (fun i => ((get_raw_spectrum stream (k + i)).1).2)
  let wlCall := get_raw_spectrum stream (k + avg)
  ((wlCall.1.1, meanIntensities caps), wlCall.2)

/-! ## Orchestration (`main.py`, `PLExperiment.shutdown`) -/

/-- Observable orchestration events: hardware sessions opened by
`PLExperiment.__init__`, the experiment mode run, the unknown-type
`ValueError`, and the shutdown hooks. -/
inductive Event
  | openSpectrometer
  | openPowerMeter
  | openFlywheel
  | runSteady
  | runDegradation
  | runPreTuning
  | raiseUnknownType
  | closeSpectrometer
  | closePowerMeter
  | closeFlywheel
deriving DecidableEq, Repr

/-- `PLExperiment.__init__` (`experiment.py` lines 35-37): the three
hardware sessions opened, in order. -/
def initEvents : List Event :=
  [Event.openSpectrometer, Event.openPowerMeter, Event.openFlywheel]

/-- The `if/elif/else` dispatch of `main` (`main.py` lines 14-21): the
mode run for a recognized experiment type, or the `ValueError` raised for
an unknown one (second component true exactly when it raises). -/
def dispatch (t : String) : List Event × Bool :=
  if t = "steady_state" then ([Event.runSteady], false)
  else if t = "degradation" then ([Event.runDegradation], false)
  else if t = "pre_tuning" then ([Event.runPreTuning], false)
  else ([Event.raiseUnknownType], true)

/-- `PLExperiment.shutdown` (`experiment.py` lines 283-286):
`spec.shutdown(); pm.close(); fw.close()` in sequence with no exception
handling; `sFail`, `pFail`, `fFail` say which adapter's hook raises.
Returns the hooks actually attempted, and whether an exception
propagated out: Python abandons the remaining statements at the first
raise. -/
def shutdownRun (sFail pFail fFail : Bool) : List Event × Bool :=
  if sFail then ([Event.closeSpectrometer], true)
  else if pFail then ([Event.closeSpectrometer, Event.closePowerMeter], true)
  else ([Event.closeSpectrometer, Event.closePowerMeter, Event.closeFlywheel], fFail)

/-- `main` (`main.py` lines 6-23): read the experiment type, construct
`PLExperiment` (which opens all three hardware sessions), dispatch on the
type inside `try`, and run `exp.shutdown()` in the `finally` block (here
with non-raising hooks).  The trace lists events in order; the flag
records whether the unknown-type `ValueError` was raised. -/
def mainTrace (t : String) : List Event × Bool :=
  ((initEvents ++ (dispatch t).1) ++ (shutdownRun false false false).1, (dispatch t).2)

/-! ### Basic pulse arithmetic -/

theorem pulseOnce_of_lt {n cur : Nat} (h : cur < n) : pulseOnce n cur = cur + 1 := by
  simp [pulseOnce, Nat.not_lt.mpr h]

theorem pulseOnce_top (n : Nat) : pulseOnce n n = 1 := by
  simp [pulseOnce]

theorem pulseOnce_mem {n cur : Nat} (hn : 1 ≤ n) (h1 : 1 ≤ cur) (h2 : cur ≤ n) :
    1 ≤ pulseOnce n cur ∧ pulseOnce n cur ≤ n := by
  unfold pulseOnce
  split <;> omega

/-- Iterating the pulse inside the range adds one per pulse. -/
theorem pulseOnce_iterate_of_le {n : Nat} :
    ∀ (j cur : Nat), 1 ≤ cur → cur + j ≤ n → (pulseOnce n)^[j] cur = cur + j := by
  intro j
  induction j with
  | zero => intro cur _ _; simp
  | succ k ih =>
      intro cur h1 h2
      rw [Function.iterate_succ_apply]
      have hlt : cur < n := by omega
      rw [pulseOnce_of_lt hlt]
      have := ih (cur + 1) (by omega) (by omega)
      omega

/-- From any in-range position, every in-range target is reached in at
most `n` pulses. -/
theorem pulseOnce_reaches {n cur target : Nat} (h1 : 1 ≤ cur) (h2 : cur ≤ n)
    (h3 : 1 ≤ target) (h4 : target ≤ n) :
    ∃ d, d ≤ n ∧ (pulseOnce n)^[d] cur = target := by
  rcases Nat.le_total cur target with hle | hge
  · exact ⟨target - cur, by omega,
      by rw [pulseOnce_iterate_of_le (target - cur) cur h1 (by omega)]; omega⟩
  · by_cases heq : cur = target
    · exact ⟨0, by omega, by simp [heq]⟩
    · have hlt : target < cur := by omega
      refine ⟨(target - 1) + (1 + (n - cur)), by omega, ?_⟩
      rw [Function.iterate_add_apply, Function.iterate_add_apply]
      have e1 : (pulseOnce n)^[n - cur] cur = n := by
        rw [pulseOnce_iterate_of_le (n - cur) cur h1 (by omega)]; omega
      rw [e1]
      have e2 : (pulseOnce n)^[1] n = 1 := by
        simp [pulseOnce_top]
      rw [e2]
      rw [pulseOnce_iterate_of_le (target - 1) 1 (by omega) (by omega)]
      omega

/-- Cyclic closure: `slot_count` pulses return the tracker to slot 1. -/
theorem pulseOnce_iterate_full {n : Nat} (hn : 1 ≤ n) :
    (pulseOnce n)^[n] 1 = 1 := by
  obtain ⟨m, rfl⟩ : ∃ m, n = m + 1 := ⟨n - 1, by omega⟩
  rw [Function.iterate_succ_apply']
  have e1 : (pulseOnce (m + 1))^[m] 1 = m + 1 := by
    rw [pulseOnce_iterate_of_le m 1 (by omega) (by omega)]; omega
  rw [e1, pulseOnce_top]

/-! ### The `go_to_slot` loop -/

theorem goLoop_pulses_le {σ : Type} (target : Nat) (step : σ → σ) (view : σ → Nat) :
    ∀ (fuel : Nat) (st : σ), (goLoop target step view fuel st).2 ≤ fuel := by
  intro fuel
  induction fuel with
  | zero => intro st; simp [goLoop]
  | succ k ih =>
      intro st
      unfold goLoop
      split
      · simp
      · simpa using Nat.succ_le_succ (ih (step st))

/-- If some number `d ≤ fuel` of steps brings the viewed position to the
target, the loop stops at the target. -/
theorem goLoop_reaches {σ : Type} (target : Nat) (step : σ → σ) (view : σ → Nat) :
    ∀ (fuel : Nat) (st : σ) (d : Nat), d ≤ fuel → view (step^[d] st) = target →
      view (goLoop target step view fuel st).1 = target := by
  intro fuel
  induction fuel with
  | zero =>
      intro st d hd hv
      interval_cases d
      simpa [goLoop] using hv
  | succ k ih =>
      intro st d hd hv
      unfold goLoop
      split
      · simpa
      · rename_i hne
        cases d with
        | zero => simp at hv; exact absurd hv hne
        | succ e =>
            rw [Function.iterate_succ_apply] at hv
            simpa using ih (step st) e (by omega) hv

/-- A step function that preserves a state predicate preserves it through
the loop. -/
theorem goLoop_preserves {σ : Type} (target : Nat) (step : σ → σ) (view : σ → Nat)
    (P : σ → Prop) (hstep : ∀ st, P st → P (step st)) :
    ∀ (fuel : Nat) (st : σ), P st → P (goLoop target step view fuel st).1 := by
  intro fuel
  induction fuel with
  | zero => intro st h; simpa [goLoop] using h
  | succ k ih =>
      intro st h
      unfold goLoop
      split
      · simpa
      · simpa using ih (step st) (hstep st h)

/-- A no-op step runs the loop to exhaustion: the state never changes and
all `fuel` attempts are consumed. -/
theorem goLoop_noop {σ : Type} (target : Nat) (view : σ → Nat) :
    ∀ (fuel : Nat) (st : σ), view st ≠ target →
      goLoop target id view fuel st = (st, fuel) := by
  intro fuel
  induction fuel with
  | zero => intro st _; simp [goLoop]
  | succ k ih =>
      intro st hne
      unfold goLoop
      rw [if_neg hne]
      simp [ih st hne]

theorem pulsePair_diag {n : Nat} (st : FwPair) (h : st.tracked = st.physical) :
    (pulsePair n st).tracked = (pulsePair n st).physical := by
  simp [pulsePair, h]

theorem pulsePair_iterate_tracked (n : Nat) :
    ∀ (k : Nat) (st : FwPair), ((pulsePair n)^[k] st).tracked = (pulseOnce n)^[k] st.tracked := by
  intro k
  induction k with
  | zero => intro st; simp
  | succ j ih =>
      intro st
      rw [Function.iterate_succ_apply, Function.iterate_succ_apply]
      exact ih (pulsePair n st)

/-- The paired pulse keeps tracked and physical slots in lockstep. -/
theorem pulsePair_iterate_diag (n : Nat) :
    ∀ (k a : Nat), (pulsePair n)^[k] ⟨a, a⟩ = FwPair.mk ((pulseOnce n)^[k] a) ((pulseOnce n)^[k] a) := by
  intro k
  induction k with
  | zero => intro a; simp
  | succ j ih =>
      intro a
      rw [Function.iterate_succ_apply, Function.iterate_succ_apply]
      exact ih (pulseOnce n a)

/-- On a diagonal (in-sync) state, `go_to_slot` succeeds on every valid
target and ends on the diagonal at the target. -/
theorem go_to_slot_pair_diag (n target c : Nat) (ht1 : 1 ≤ target)
    (htn : target ≤ n) (hc1 : 1 ≤ c) (hcn : c ≤ n) :
    ∃ d, go_to_slot n target (pulsePair n) FwPair.tracked ⟨c, c⟩ =
      (Except.ok ⟨target, target⟩, d) := by
  by_cases heq : target = c
  · subst heq
    exact ⟨0, by simp [go_to_slot, ht1, htn]⟩
  · obtain ⟨d, hd, hreach⟩ := pulseOnce_reaches hc1 hcn ht1 htn
  -- the loop stops with tracked = target
    have hview : FwPair.tracked ((pulsePair n)^[d] ⟨c, c⟩) = target := by
      rw [pulsePair_iterate_tracked]; exact hreach
    have hstop := goLoop_reaches target (pulsePair n) FwPair.tracked n ⟨c, c⟩ d hd hview
    have hdiag := goLoop_preserves target (pulsePair n) FwPair.tracked
      (fun st => st.tracked = st.physical) (fun st h => pulsePair_diag st h)
      n ⟨c, c⟩ rfl
    refine ⟨(goLoop target (pulsePair n) FwPair.tracked n ⟨c, c⟩).2, ?_⟩
    have hstate : (goLoop target (pulsePair n) FwPair.tracked n ⟨c, c⟩).1 =
        FwPair.mk target target := by
      rcases hgl : (goLoop target (pulsePair n) FwPair.tracked n ⟨c, c⟩).1 with ⟨t, p⟩
      rw [hgl] at hstop hdiag
      simp only at hstop hdiag
      simp only [FwPair.mk.injEq]
      omega
  -- assemble the branches of go_to_slot
    simp [go_to_slot, ht1, htn, heq, hstop, hstate]

/-! ## Claims C1, C2 -/

/-- C1: for every `slot_count ≥ 1` and target `s ∈ [1, slot_count]`,
`go_to_slot(s)` terminates after at most `slot_count` calls to
`_pulse_once` and returns with `current_slot = s` (so the
`RuntimeError` branch is unreachable when each pulse advances the tracked
position by exactly one slot cyclically); with a broken tracker whose
pulses are no-ops on the tracked position, it raises the error after
exactly `slot_count` pulse attempts. -/
theorem go_to_slot_converges_and_flags_desync (n s cur : Nat)
    (hn : 1 ≤ n) (hs1 : 1 ≤ s) (hsn : s ≤ n) (hc1 : 1 ≤ cur) (hcn : cur ≤ n) :
    (∃ d, d ≤ n ∧ go_to_slot n s (pulseOnce n) id cur = (Except.ok s, d)) ∧
    (cur ≠ s → go_to_slot n s id id cur = (Except.error FwError.unreachable, n)) := by
  constructor
  · by_cases heq : s = cur
    · exact ⟨0, by omega, by simp [go_to_slot, heq, hc1, hcn]⟩
    · obtain ⟨d, hd, hreach⟩ := pulseOnce_reaches hc1 hcn hs1 hsn
      have hstop : (goLoop s (pulseOnce n) id n cur).1 = s :=
        goLoop_reaches s (pulseOnce n) id n cur d hd (by simpa using hreach)
      exact ⟨(goLoop s (pulseOnce n) id n cur).2,
        goLoop_pulses_le s (pulseOnce n) id n cur,
        by simp [go_to_slot, hs1, hsn, heq, hstop]⟩
  · intro hne
    have hloop := goLoop_noop s id n cur (by simpa using hne)
    have hne' : s ≠ cur := fun h => hne h.symm
    simp [go_to_slot, hs1, hsn, hne', hloop, hne]

/-- `go_to_slot_converges_and_flags_desync` at `slot_count = 6`, target 3,
current slot 5. -/
theorem go_to_slot_converges_and_flags_desync_witness :
    (∃ d, d ≤ 6 ∧ go_to_slot 6 3 (pulseOnce 6) id 5 = (Except.ok 3, d)) ∧
    (5 ≠ 3 → go_to_slot 6 3 id id 5 = (Except.error FwError.unreachable, 6)) :=
  go_to_slot_converges_and_flags_desync 6 3 5 (by decide) (by decide) (by decide)
    (by decide) (by decide)

/-- C2: for every valid target slot `s ∈ [1, slot_count]`, when
`current_slot = s` the call `go_to_slot(s)` issues zero pulses, leaves
`current_slot` unchanged, and returns `current_slot`. -/
theorem go_to_slot_idempotent_at_target (n s : Nat) (hs1 : 1 ≤ s) (hsn : s ≤ n) :
    go_to_slot n s (pulseOnce n) id s = (Except.ok s, 0) := by
  simp [go_to_slot, hs1, hsn]

/-- `go_to_slot_idempotent_at_target` at `slot_count = 6`, slot 4. -/
theorem go_to_slot_idempotent_at_target_witness :
    go_to_slot 6 4 (pulseOnce 6) id 4 = (Except.ok 4, 0) :=
  go_to_slot_idempotent_at_target 6 4 (by decide) (by decide)

/-! ## Claim C3: auto-configuration -/

theorem configureLoop_final (n : Nat) (pm : Nat → ℚ) :
    ∀ (k : Nat) (st : FwPair), (configureLoop n pm k st).2 = (pulsePair n)^[k] st := by
  intro k
  induction k with
  | zero => intro st; simp [configureLoop]
  | succ j ih =>
      intro st
      rw [Function.iterate_succ_apply]
      exact ih (pulsePair n st)

/-- Measurement list of the configuration scan: starting in sync at slot
`s`, a `k`-iteration scan that stays in range records exactly the pairs
`(t, pm t)` for `t = s, …, s + k - 1`. -/
theorem configureLoop_measurements (n : Nat) (pm : Nat → ℚ) :
    ∀ (k s : Nat), 1 ≤ s → s + k ≤ n + 1 →
      (configureLoop n pm k ⟨s, s⟩).1 = (List.range' s k).map (fun t => (t, pm t)) := by
  intro k
  induction k with
  | zero => intro s _ _; simp [configureLoop]
  | succ j ih =>
      intro s hs1 hsk
      rw [List.range'_succ]
      cases j with
      | zero => simp [configureLoop]
      | succ i =>
          have hlt : s < n := by omega
          have hpulse : pulsePair n ⟨s, s⟩ = FwPair.mk (s + 1) (s + 1) := by
            simp [pulsePair, pulseOnce_of_lt hlt]
          have hstep : (configureLoop n pm (i + 1 + 1) ⟨s, s⟩).1 =
              (s, pm s) :: (configureLoop n pm (i + 1) (pulsePair n ⟨s, s⟩)).1 := rfl
          rw [hstep, hpulse, ih (s + 1) (by omega) (by omega)]
          simp

/-- First-argmax invariant for the fold implementing Python
`max(measurements, key=lambda x: x[1])` over the slot range
`[s, s + k)`, starting from an accumulator `(c, pm c)` that is already
the first argmax of `[1, s)`. -/
theorem pyFold_first_argmax (pm : Nat → ℚ) :
    ∀ (k s c : Nat), 1 ≤ c → c < s →
      (∀ t, 1 ≤ t → t < s → pm t ≤ pm c) →
      (∀ t, 1 ≤ t → t < c → pm t < pm c) →
      let r := ((List.range' s k).map (fun t => (t, pm t))).foldl
        (fun b x => if b.2 < x.2 then x else b) (c, pm c)
      1 ≤ r.1 ∧ r.1 < s + k ∧ r.2 = pm r.1 ∧
        (∀ t, 1 ≤ t → t < s + k → pm t ≤ pm r.1) ∧
        (∀ t, 1 ≤ t → t < r.1 → pm t < pm r.1) := by
  intro k
  induction k with
  | zero =>
      intro s c hc1 hcs hmax hfirst
      exact ⟨hc1, hcs.trans_le (Nat.le_add_right s 0), rfl,
        fun t ht1 ht2 => hmax t ht1 (by omega), hfirst⟩
  | succ j ih =>
      intro s c hc1 hcs hmax hfirst
      rw [List.range'_succ]
      simp only [List.map_cons, List.foldl_cons]
      by_cases hcmp : pm c < pm s
      · rw [if_pos hcmp]
        have h1 : (1 : Nat) ≤ s := by omega
        have h2 : s < s + 1 := by omega
        have h3 : ∀ t, 1 ≤ t → t < s + 1 → pm t ≤ pm s := by
          intro t ht1 ht2
          by_cases hts : t = s
          · exact le_of_eq (by rw [hts])
          · exact le_of_lt (lt_of_le_of_lt (hmax t ht1 (by omega)) hcmp)
        have h4 : ∀ t, 1 ≤ t → t < s → pm t < pm s := by
          intro t ht1 ht2
          exact lt_of_le_of_lt (hmax t ht1 ht2) hcmp
        obtain ⟨q1, q2, q3, q4, q5⟩ := ih (s + 1) s h1 h2 h3 h4
        exact ⟨q1, by omega, q3, fun t ht1 ht2 => q4 t ht1 (by omega), q5⟩
      · rw [if_neg hcmp]
        have h3 : ∀ t, 1 ≤ t → t < s + 1 → pm t ≤ pm c := by
          intro t ht1 ht2
          by_cases hts : t = s
          · rw [hts]; exact le_of_not_lt hcmp
          · exact hmax t ht1 (by omega)
        obtain ⟨q1, q2, q3, q4, q5⟩ := ih (s + 1) c hc1 (by omega) h3 hfirst
        exact ⟨q1, by omega, q3, fun t ht1 ht2 => q4 t ht1 (by omega), q5⟩

/-- C3: `configure_flywheel_with_powermeter`, starting from an in-sync
tracked position 1, records one `(slot, power)` pair for each of the
`slot_count` positions (slots `1, …, slot_count` in order), pulsing once
after each reading so that the tracked position is back at its start
after the full cycle; it then moves the wheel to the slot `b` whose
recorded power is maximal (first occurrence on ties) and calls
`reset_slot(1)`, so on return the tracked position is 1 while the
physical position is the maximum-power slot `b`. -/
theorem configure_aligns_mirror_to_slot_one (n : Nat) (pm : Nat → ℚ) (hn : 1 ≤ n) :
    (configureLoop n pm n ⟨1, 1⟩).1 = (List.range' 1 n).map (fun t => (t, pm t)) ∧
    (configureLoop n pm n ⟨1, 1⟩).2 = ⟨1, 1⟩ ∧
    ∃ b, configure_flywheel_with_powermeter n pm ⟨1, 1⟩ = Except.ok ⟨1, b⟩ ∧
      1 ≤ b ∧ b ≤ n ∧
      (∀ t, 1 ≤ t → t ≤ n → pm t ≤ pm b) ∧
      (∀ t, 1 ≤ t → t < b → pm t < pm b) := by
  have hmeas := configureLoop_measurements n pm n 1 (by omega) (by omega)
  have hfin : (configureLoop n pm n ⟨1, 1⟩).2 = FwPair.mk 1 1 := by
    rw [configureLoop_final, pulsePair_iterate_diag, pulseOnce_iterate_full hn]
  refine ⟨hmeas, hfin, ?_⟩
  obtain ⟨m, rfl⟩ : ∃ m, n = m + 1 := ⟨n - 1, by omega⟩
  have hsplit : List.range' 1 (m + 1) = 1 :: List.range' 2 m := List.range'_succ 1 m 1
  have hargmax := pyFold_first_argmax pm m 2 1 (by omega) (by omega)
    (by intro t ht1 ht2; interval_cases t; exact le_refl _)
    (by intro t ht1 ht2; omega)
  set best := ((List.range' 2 m).map (fun t => (t, pm t))).foldl
    (fun b x => if b.2 < x.2 then x else b) (1, pm 1) with hbest
  obtain ⟨hb1, hb2, hbsnd, hbmax, hbfirst⟩ := hargmax
  obtain ⟨d, hgo⟩ := go_to_slot_pair_diag (m + 1) best.1 1 hb1 (by omega) (by omega) (by omega)
  refine ⟨best.1, ?_, hb1, by omega, fun t ht1 ht2 => hbmax t ht1 (by omega), hbfirst⟩
  simp only [configure_flywheel_with_powermeter]
  rw [hmeas, hfin, hsplit]
  simp only [List.map_cons, pyMaxBySnd]
  rw [← hbest, hgo]
  simp [reset_slot]

/-- `configure_aligns_mirror_to_slot_one` at `slot_count = 6` with the
maximum-power (mirror) slot at 3. -/
theorem configure_aligns_mirror_to_slot_one_witness :
    (configureLoop 6 mirrorPM 6 ⟨1, 1⟩).1 = (List.range' 1 6).map (fun t => (t, mirrorPM t)) ∧
    (configureLoop 6 mirrorPM 6 ⟨1, 1⟩).2 = ⟨1, 1⟩ ∧
    ∃ b, configure_flywheel_with_powermeter 6 mirrorPM ⟨1, 1⟩ = Except.ok ⟨1, b⟩ ∧
      1 ≤ b ∧ b ≤ 6 ∧
      (∀ t, 1 ≤ t → t ≤ 6 → mirrorPM t ≤ mirrorPM b) ∧
      (∀ t, 1 ≤ t → t < b → mirrorPM t < mirrorPM b) :=
  configure_aligns_mirror_to_slot_one 6 mirrorPM (by decide)

/-! ## Claims C4, C5, C6: correction pipeline -/

/-- C4: in every degradation-mode cycle with normalization enabled and
background correction enabled (all three background/normalization source
combinations that persist a spectrum), the persisted intensity is
computed by first dividing the captured intensity by the reference power
and then subtracting the background and clipping at zero — normalize
first, then subtract background, never the opposite order. -/
theorem degradation_normalize_before_background
    (flywheelMode : String) (bgOnce bgMirror inten : List ℚ)
    (powerMirror powerBs : ℚ) (hfw : flywheelMode ≠ "skip")
    (hPm : 0 < powerMirror) (hPb : 0 < powerBs) :
    degradationCycle flywheelMode "mirror" true true bgOnce bgMirror inten powerMirror powerBs =
      Except.ok (clipNonneg (subBackground (inten.map (fun x => x / powerMirror)) bgMirror)) ∧
    degradationCycle flywheelMode "mirror" true false bgOnce bgMirror inten powerMirror powerBs =
      Except.ok (clipNonneg (subBackground (inten.map (fun x => x / powerMirror)) bgOnce)) ∧
    degradationCycle flywheelMode "beam_splitter" true false bgOnce bgMirror inten powerMirror powerBs =
      Except.ok (clipNonneg (subBackground (inten.map (fun x => x / powerBs)) bgOnce)) := by
  have hm : ("mirror" : String) ≠ "none" := by decide
  have hb : ("beam_splitter" : String) ≠ "none" := by decide
  have hbm : ("beam_splitter" : String) ≠ "mirror" := by decide
  refine ⟨?_, ?_, ?_⟩ <;>
    simp [degradationCycle, normalizeStep, hfw, hPm, hPb, hm, hb, hbm]

/-- `degradation_normalize_before_background` with the wheel in motion,
reference powers 2 and 4, and concrete arrays. -/
theorem degradation_normalize_before_background_witness :
    degradationCycle "move" "mirror" true true [0] [1] [3] 2 4 =
      Except.ok (clipNonneg (subBackground (([3] : List ℚ).map (fun x => x / 2)) [1])) ∧
    degradationCycle "move" "mirror" true false [0] [1] [3] 2 4 =
      Except.ok (clipNonneg (subBackground (([3] : List ℚ).map (fun x => x / 2)) [0])) ∧
    degradationCycle "move" "beam_splitter" true false [0] [1] [3] 2 4 =
      Except.ok (clipNonneg (subBackground (([3] : List ℚ).map (fun x => x / 4)) [0])) :=
  degradation_normalize_before_background "move" [0] [1] [3] 2 4 (by decide)
    (by decide) (by decide)

/-- C5: background correction computes `max(raw - background, 0)`
elementwise: for equal-length raw and background arrays every element of
the corrected output is non-negative, and with an all-zero background
the output equals `clip(raw, 0, None)`. -/
theorem background_correction_nonneg_and_zero_bg (raw bg : List ℚ)
    (hlen : raw.length = bg.length) :
    (∀ x ∈ clipNonneg (subBackground raw bg), 0 ≤ x) ∧
    clipNonneg (subBackground raw (List.replicate raw.length 0)) = clipNonneg raw := by
  constructor
  · intro x hx
    simp only [clipNonneg, List.mem_map] at hx
    obtain ⟨y, _, rfl⟩ := hx
    exact le_max_right y 0
  · have hzero : ∀ l : List ℚ, subBackground l (List.replicate l.length 0) = l := by
      intro l
      induction l with
      | nil => simp [subBackground]
      | cons a l2 ih => simpa [subBackground, List.replicate] using ih
    rw [hzero]

/-- `background_correction_nonneg_and_zero_bg` on `raw = [1, -2]`,
`bg = [3, 0]`. -/
theorem background_correction_nonneg_and_zero_bg_witness :
    (∀ x ∈ clipNonneg (subBackground [1, -2] [3, 0]), 0 ≤ x) ∧
    clipNonneg (subBackground [1, -2] (List.replicate ([1, -2] : List ℚ).length 0)) =
      clipNonneg [1, -2] :=
  background_correction_nonneg_and_zero_bg [1, -2] [3, 0] (by decide)

/-- C6: in degradation mode with normalization enabled, a positive
reference power `P` scales every element by exactly `1 / P`, and a
non-positive reference power leaves the intensity array unchanged — no
division by a non-positive power ever occurs. -/
theorem normalization_scaling_policy (norm : String) (P : ℚ) (inten : List ℚ)
    (hnorm : norm ≠ "none") :
    (0 < P → normalizeStep norm P inten = inten.map (fun x => x * (1 / P))) ∧
    (P ≤ 0 → normalizeStep norm P inten = inten) := by
  constructor
  · intro hP
    simp [normalizeStep, hnorm, hP, div_eq_mul_inv, one_div]
  · intro hP
    have : ¬(0 : ℚ) < P := not_lt.mpr hP
    simp [normalizeStep, this]

/-- `normalization_scaling_policy` in mirror normalization with `P = 2`
and `inten = [3, 5]`. -/
theorem normalization_scaling_policy_witness :
    ((0 : ℚ) < 2 → normalizeStep "mirror" 2 [3, 5] = ([3, 5] : List ℚ).map (fun x => x * (1 / 2))) ∧
    ((2 : ℚ) ≤ 0 → normalizeStep "mirror" 2 [3, 5] = [3, 5]) :=
  normalization_scaling_policy "mirror" 2 [3, 5] (by decide)

/-! ## Claim C7: averaging with `avg_count = 1` -/

/-- C7: with `avg_count = 1` and the same underlying sequence of raw
spectra supplied by the spectrometer, `average_spectrum` produces output
identical to the non-averaged single-capture path (one
`get_raw_spectrum` call), in both the wavelength and the intensity
array. -/
theorem averaging_one_equals_single_capture (stream : Nat → List ℚ) (k : Nat) :
    (average_spectrum stream 1 k).1 = (get_raw_spectrum stream k).1 := by
  have hr : List.range 1 = [0] := rfl
  simp [average_spectrum, get_raw_spectrum, meanIntensities, sumIntensities,
    hr, div_one, List.map_id]

/-! ## Claims C8, C9: orchestration and shutdown -/

/-- C8 as stated is false on the code: with the unrecognized experiment
type `"bogus"`, `main` does raise the unknown-type `ValueError`, but
only after `PLExperiment()` opened the spectrometer, power-meter and
flywheel sessions — the open events precede the raise in the trace. -/
theorem unknown_type_raises_after_hardware_open :
    (mainTrace "bogus").2 = true ∧
    (mainTrace "bogus").1 =
      [Event.openSpectrometer, Event.openPowerMeter, Event.openFlywheel,
        Event.raiseUnknownType,
        Event.closeSpectrometer, Event.closePowerMeter, Event.closeFlywheel] ∧
    (mainTrace "bogus").1.indexOf Event.openSpectrometer <
      (mainTrace "bogus").1.indexOf Event.raiseUnknownType := by
  decide

/-- C8 amended: an experiment type other than `"steady_state"`,
`"degradation"`, `"pre_tuning"` makes `main` raise `ValueError` before
any experiment mode runs — but only after the hardware sessions were
opened by the `PLExperiment` constructor, and the `finally` block still
runs shutdown. -/
theorem unknown_type_raises_before_any_mode (t : String)
    (h1 : t ≠ "steady_state") (h2 : t ≠ "degradation") (h3 : t ≠ "pre_tuning") :
    (mainTrace t).2 = true ∧
    (mainTrace t).1 = initEvents ++ [Event.raiseUnknownType] ++
      [Event.closeSpectrometer, Event.closePowerMeter, Event.closeFlywheel] := by
  simp [mainTrace, dispatch, shutdownRun, initEvents, h1, h2, h3]

/-- `unknown_type_raises_before_any_mode` at the type `"bogus"`. -/
theorem unknown_type_raises_before_any_mode_witness :
    (mainTrace "bogus").2 = true ∧
    (mainTrace "bogus").1 = initEvents ++ [Event.raiseUnknownType] ++
      [Event.closeSpectrometer, Event.closePowerMeter, Event.closeFlywheel] :=
  unknown_type_raises_before_any_mode "bogus" (by decide) (by decide) (by decide)

/-- C9 as stated is false on the code: when the spectrometer shutdown
hook raises, `PLExperiment.shutdown` — a plain statement sequence with
no exception handling — does not attempt the power-meter or flywheel
hooks. -/
theorem shutdown_failure_not_isolated :
    shutdownRun true false false = ([Event.closeSpectrometer], true) ∧
    Event.closePowerMeter ∉ (shutdownRun true false false).1 ∧
    Event.closeFlywheel ∉ (shutdownRun true false false).1 := by
  decide

/-- C9 amended: the shutdown block runs via `main`'s `finally` no matter
which mode ran or whether it raised, and attempts the spectrometer,
power-meter and flywheel hooks in that order — but only up to the first
hook that raises: an exception in one adapter's shutdown prevents the
remaining hooks from being attempted. -/
theorem shutdown_runs_up_to_first_failure (t : String) (sFail pFail fFail : Bool) :
    (mainTrace t).1 = initEvents ++ (dispatch t).1 ++
      [Event.closeSpectrometer, Event.closePowerMeter, Event.closeFlywheel] ∧
    (shutdownRun sFail pFail fFail).1 =
      (if sFail then [Event.closeSpectrometer]
       else if pFail then [Event.closeSpectrometer, Event.closePowerMeter]
       else [Event.closeSpectrometer, Event.closePowerMeter, Event.closeFlywheel]) := by
  constructor
  · simp [mainTrace, shutdownRun, List.append_assoc]
  · by_cases hs : sFail <;> by_cases hp : pFail <;> simp [shutdownRun, hs, hp]

/-! ## Claim C10: missing background in degradation mode -/

/-- C10: in `run_degradation_study` with background correction enabled
and `repeated_bg` true (its default), when the cycle never visits the
mirror branch (because `flywheel_mode` is `"skip"` or normalization is
not `"mirror"`), no background is ever captured, so the first cycle's
background-subtraction step reads the never-assigned local `background`
and raises an unhandled `NameError` before any spectrum of that run is
persisted. -/
theorem degradation_name_error_when_background_unbound
    (flywheelMode norm : String) (bgOnce bgMirror inten : List ℚ)
    (powerMirror powerBs : ℚ)
    (h : flywheelMode = "skip" ∨ norm ≠ "mirror") :
    degradationCycle flywheelMode norm true true bgOnce bgMirror inten powerMirror powerBs =
      Except.error "NameError" ∧
    degradationCyclePersisted flywheelMode norm true true bgOnce bgMirror inten
      powerMirror powerBs = [] := by
  rcases h with h | h
  · subst h
    refine ⟨?_, ?_⟩ <;> simp [degradationCycle, degradationCyclePersisted]
  · refine ⟨?_, ?_⟩ <;> simp [degradationCycle, degradationCyclePersisted, h]

/-- `degradation_name_error_when_background_unbound` at
`flywheel_mode = "skip"` with `normalization = "none"`. -/
theorem degradation_name_error_when_background_unbound_witness :
    degradationCycle "skip" "none" true true [] [] [1] 1 1 =
      Except.error "NameError" ∧
    degradationCyclePersisted "skip" "none" true true [] [] [1] 1 1 = [] :=
  degradation_name_error_when_background_unbound "skip" "none" [] [] [1] 1 1
    (Or.inl rfl)

end PL
